import Mathlib

/-!
Verification development for the Time Tracker application
(React/TypeScript). The definitions below are a shallow embedding of
the repository's core logic:

* the data model (`src/types.ts`): `TimeEntry`, `AppSettings`,
  `DailyStats`;
* the statistics engine (`src/components/Statistics.tsx`): time-range
  filtering, aggregate totals, per-day grouping, `mostProductiveDay`,
  the productivity score, and the CSV export;
* the session state machine (`App.tsx`): `startTimer`, `pauseTimer`,
  `stopTimer`, `resetTimer`, `startBreak`, `addNoteToCurrentSession`,
  the 1-second tick, and the auto-completion effect of
  `src/components/Timer.tsx`;
* the persistence reads (`App.tsx` state initializers over
  localStorage and JSON.parse).

Timestamps are modelled as natural numbers (milliseconds since epoch),
durations as natural numbers (seconds), matching the integer values the
program actually produces (the tick increments elapsed time by whole
seconds).  JavaScript's Math.round is `round` on rationals
(both are floor (x + 1/2)).
-/

namespace TimeTracker

/-- The `type` field of a TimeEntry.  `src/types.ts` declares only
`'work' | 'break'`, but `Statistics.tsx` additionally compares against
the string literals `'shortBreak'` and `'longBreak'`; at runtime the
field is an arbitrary string tag, so the embedding uses the closed
enumeration of all four tags that occur in the source. -/
inductive EntryType where
  | work
  | brk
  | shortBreak
  | longBreak
deriving DecidableEq, Repr

/-- `TimeEntry` from `src/types.ts`.  `startTime`/`endTime` are
timestamps in milliseconds; `duration` is in seconds. -/
structure TimeEntry where
  id : Nat
  startTime : Nat
  endTime : Option Nat
  duration : Nat
  type : EntryType
  notes : String
  userId : String
deriving DecidableEq, Repr

/-- `AppSettings` from `src/types.ts` (durations in seconds). -/
structure AppSettings where
  workDuration : Nat
  breakDuration : Nat
  autoStartBreaks : Bool
  autoStartWork : Bool
  notifications : Bool
  darkMode : Bool
  userId : String
deriving DecidableEq, Repr

/-- `DailyStats` from `src/types.ts`.  The `date` grouping key is the
calendar day of the entries' start times; `Statistics.tsx` uses the
locale date string `formatDate(new Date(entry.startTime))`, which is
equal for two timestamps exactly when they fall on the same calendar
day, so the key is modelled as the day index. -/
structure DailyStats where
  date : Nat
  totalWorkTime : Nat
  totalBreakTime : Nat
  sessions : Nat
deriving DecidableEq, Repr

/-- Milliseconds per day, used by the day-index model of
`formatDate`. -/
def msPerDay : Nat := 86400000

/-- Modelled from the spec: `src/utils/timeUtils.ts` is not part of the
sources; the spec says the per-day grouping key is the locale date
string of `startTime` ("group the display list by calendar date,
locale date string as grouping key").  Modelled as the calendar-day
index of the timestamp: two timestamps obtain the same key exactly when
they fall on the same day. -/
def dayKey (t : Nat) : Nat := t / msPerDay

/-- Modelled from the spec: `formatDate` renders the calendar date of a
timestamp (locale date string); rendered here as the decimal day
index. -/
def formatDate (t : Nat) : String := toString (dayKey t)

/-- Modelled from the spec: `toLocaleTimeString` renders the time of
day of a timestamp; rendered here as milliseconds past midnight. -/
def localeTimeString (t : Nat) : String := toString (t % msPerDay)

/-- The string value of the `type` tag, as it appears in the TypeScript
source. -/
def typeTag : EntryType → String
  | .work => "work"
  | .brk => "break"
  | .shortBreak => "shortBreak"
  | .longBreak => "longBreak"

/-! ## Statistics engine (`Statistics.tsx`, `stats` memo, lines 41-127) -/

/-- The selected time range of the Statistics view. -/
inductive TimeRange where
  | today
  | week
  | month
  | all
deriving DecidableEq, Repr

/-- The range thresholds computed from `now` in `Statistics.tsx` lines
43-47: `today` is local midnight of now, `startOfWeek` is midnight of
the current week's Sunday, `startOfMonth` is midnight of the first of
the month.  The calendar arithmetic lives in the host `Date` library;
the embedding takes the three resolved thresholds as an environment. -/
structure TimeEnv where
  startOfToday : Nat
  startOfWeek : Nat
  startOfMonth : Nat
deriving DecidableEq, Repr

/-- The threshold an entry's `startTime` is compared against for a
given range (`none` for `all`: no filter). -/
def rangeCutoff (env : TimeEnv) : TimeRange → Option Nat
  | .today => some env.startOfToday
  | .week => some env.startOfWeek
  | .month => some env.startOfMonth
  | .all => none

/-- Lines 49-63: `filteredEntries`, keeping entries with
`startTime >= threshold` (inclusive); `all` keeps everything. -/
def filterByRange (env : TimeEnv) (range : TimeRange)
    (timeEntries : List TimeEntry) : List TimeEntry :=
  match rangeCutoff env range with
  | none => timeEntries
  | some c => timeEntries.filter (fun e => c ≤ e.startTime)

/-- Lines 84-91: `entriesByDay`: the display list grouped into a
key-ordered record, first-occurrence key order (JavaScript object keys
of non-index strings preserve insertion order), each group in list
order. -/
def groupByDay (entries : List TimeEntry) : List (Nat × List TimeEntry) :=
  entries.foldl (fun acc e =>
    let k := dayKey e.startTime
    if acc.any (fun p => p.1 = k) then
      acc.map (fun p => if p.1 = k then (p.1, p.2 ++ [e]) else p)
    else
      acc ++ [(k, [e])]) []

/-- Lines 93-109: the `DailyStats` row computed for one day group. -/
def mkDailyStats (g : Nat × List TimeEntry) : DailyStats :=
  { date := g.1
    totalWorkTime :=
      ((g.2.filter (fun e => e.type == .work)).foldl
        (fun total e => total + e.duration) 0)
    totalBreakTime :=
      ((g.2.filter (fun e => e.type == .shortBreak || e.type == .longBreak)).foldl
        (fun total e => total + e.duration) 0)
    sessions := (g.2.filter (fun e => e.type == .work)).length }

/-- Stable descending insertion by date, modelling line 112's
`dailyStats.sort((a, b) => date b - date a)` (JavaScript sort is
stable; a run keeps relative order of equal keys). -/
def insertDesc (x : DailyStats) : List DailyStats → List DailyStats
  | [] => [x]
  | y :: ys => if y.date < x.date then x :: y :: ys else y :: insertDesc x ys

/-- Sort the daily stats newest-first (line 112). -/
def sortByDateDesc (l : List DailyStats) : List DailyStats :=
  l.foldr insertDesc []

/-- The reduce callback of lines 123-125:
`prev.totalWorkTime > current.totalWorkTime ? prev : current`. -/
def mpdStep (prev current : DailyStats) : DailyStats :=
  if current.totalWorkTime < prev.totalWorkTime then prev else current

/-- Lines 122-126: `dailyStats.reduce((prev, current) =>
prev.totalWorkTime > current.totalWorkTime ? prev : current)` on a
non-empty list, `null` otherwise.  A seedless JavaScript reduce takes
the first element as the accumulator and folds over the rest. -/
def mostProductiveDay : List DailyStats → Option DailyStats
  | [] => none
  | d :: ds => some (ds.foldl mpdStep d)

/-- The record returned by the `stats` memo (lines 114-127).  Note the
returned `filteredEntries` field actually holds `displayedEntries`
(line 121 of the source). -/
structure Stats where
  totalWorkTime : Nat
  totalBreakTime : Nat
  workSessions : Nat
  shortBreaks : Nat
  longBreaks : Nat
  dailyStats : List DailyStats
  filteredEntries : List TimeEntry
  mostProductiveDay : Option DailyStats
deriving DecidableEq, Repr

/-- The `stats` memo of `Statistics.tsx` (lines 41-127) as a pure
function of the entry list, the time range, and the `showBreaks`
flag. -/
def statsOf (env : TimeEnv) (range : TimeRange) (showBreaks : Bool)
    (timeEntries : List TimeEntry) : Stats :=
  let filteredEntries := filterByRange env range timeEntries
  let displayedEntries :=
    if showBreaks then filteredEntries
    else filteredEntries.filter (fun e => e.type == .work)
  let totalWorkTime :=
    ((filteredEntries.filter (fun e => e.type == .work)).foldl
      (fun total e => total + e.duration) 0)
  let totalBreakTime :=
    ((filteredEntries.filter
        (fun e => e.type == .shortBreak || e.type == .longBreak)).foldl
      (fun total e => total + e.duration) 0)
  let workSessions := (filteredEntries.filter (fun e => e.type == .work)).length
  let shortBreaks := (filteredEntries.filter (fun e => e.type == .shortBreak)).length
  let longBreaks := (filteredEntries.filter (fun e => e.type == .longBreak)).length
  let dailyStats := sortByDateDesc ((groupByDay displayedEntries).map mkDailyStats)
  { totalWorkTime := totalWorkTime
    totalBreakTime := totalBreakTime
    workSessions := workSessions
    shortBreaks := shortBreaks
    longBreaks := longBreaks
    dailyStats := dailyStats
    filteredEntries := displayedEntries
    mostProductiveDay := mostProductiveDay dailyStats }

/-- The productivity score memo (`Statistics.tsx` lines 131-150), a
function of the two totals; JavaScript `Math.round` is `round` over
exact rationals. -/
def productivityScore (w b : Nat) : ℤ :=
  if w = 0 ∧ b = 0 then 0
  else
    let workBreakRatio : ℚ :=
      if (0 : ℚ) < (b : ℚ) then (w : ℚ) / (b : ℚ)
      else if (0 : ℚ) < (w : ℚ) then 100 else 0
    let score : ℚ :=
      if 4 ≤ workBreakRatio ∧ workBreakRatio ≤ 6 then 100
      else if 6 < workBreakRatio then
        100 - min (((workBreakRatio - 6) / 4) * 100) 50
      else if workBreakRatio < 4 ∧ 0 < workBreakRatio then
        max ((workBreakRatio / 4) * 100) 50
      else 0
    round score

/-! ## CSV export (`Statistics.tsx`, `exportToCSV`, lines 20-38) -/

/-- The header row of the exported CSV (line 21). -/
def csvHeaders : List String :=
  ["Date", "Start Time", "End Time", "Duration (minutes)", "Type", "Notes"]

/-- Line 26: `Math.round(entry.duration / 60)` over exact rationals. -/
def csvDuration (d : Nat) : ℤ := round ((d : ℚ) / 60)

/-- Line 28: `entry.notes.replace(/,/g, ';')`, the global replacement
of every comma by a semicolon (character-wise map over the string's
characters). -/
def replaceCommas (s : String) : String :=
  ⟨s.data.map (fun c => if c = ',' then ';' else c)⟩

/-- Lines 22-29: the data row produced for one entry. -/
def csvRow (e : TimeEntry) : List String :=
  [formatDate e.startTime,
   localeTimeString e.startTime,
   (match e.endTime with
    | some t => localeTimeString t
    | none => ""),
   toString (csvDuration e.duration),
   typeTag e.type,
   replaceCommas e.notes]

/-- Lines 22-29: `csvData`, one row per element of the `timeEntries`
prop (the component's full entry list, not the filtered `stats`
list). -/
def csvData (timeEntries : List TimeEntry) : List (List String) :=
  timeEntries.map csvRow

/-- Lines 31-34: the full CSV text: header row then data rows, cells
joined by commas, rows joined by newlines. -/
def exportToCSV (timeEntries : List TimeEntry) : String :=
  String.intercalate "\n"
    (String.intercalate "," csvHeaders ::
      (csvData timeEntries).map (String.intercalate ","))

/-! ## Session state machine (`App.tsx`)

React state semantics: an event handler or effect reads the state
captured at its defining render (the snapshot `snap`) and issues
writes; a functional update such as
`setTimeEntries(prev => [...prev, x])` is applied to the latest queued
state (`live`), while a plain `setX(v)` overwrites.  Within one
synchronous handler run the snapshot does not change, even after
writes have been queued.  Each handler is therefore embedded as a
function of `(snap, live)`; a top-level UI event runs it with
`snap = live = σ`, the committed state. -/

/-- The App component state relevant to the session machine. -/
structure AppState where
  isRunning : Bool
  currentSession : Option TimeEntry
  timeEntries : List TimeEntry
  elapsedTime : Nat
deriving DecidableEq, Repr

/-- The initial App state: not running, no current session, no
persisted entries, zero elapsed time. -/
def initState : AppState :=
  { isRunning := false, currentSession := none, timeEntries := [], elapsedTime := 0 }

/-- The finalized entry `stopTimer` appends: the session with
`endTime = now` and `duration = elapsedTime` (App.tsx lines
331-336). -/
def finalize (now : Nat) (s : TimeEntry) (elapsed : Nat) : TimeEntry :=
  { s with endTime := some now, duration := elapsed }

/-- `App.stopTimer` (lines 329-343): if the snapshot has a current
session, append the finalized session to the entry list (functional
update on `live`), clear the current session and elapsed time, stop
running; otherwise do nothing. -/
def stopTimerW (now : Nat) (snap live : AppState) : AppState :=
  match snap.currentSession with
  | none => live
  | some s =>
      { live with
        timeEntries := live.timeEntries ++ [finalize now s snap.elapsedTime]
        currentSession := none
        elapsedTime := 0
        isRunning := false }

/-- The fresh work entry `startTimer` creates (lines 311-319):
`id = Date.now()`, `startTime = now`, no end, duration 0, type
`work`. -/
def newWorkSession (now : Nat) (uid : String) : TimeEntry :=
  { id := now, startTime := now, endTime := none, duration := 0,
    type := .work, notes := "", userId := uid }

/-- The fresh break entry `startBreak` creates (lines 354-362); its
`type` is the string `'break'`. -/
def newBreakSession (now : Nat) (uid : String) : TimeEntry :=
  { id := now, startTime := now, endTime := none, duration := 0,
    type := .brk, notes := "", userId := uid }

/-- `App.startTimer` (lines 307-323): no-op when the snapshot is
already running; otherwise start running and, when the snapshot has no
current session, create a fresh work session. -/
def startTimerW (now : Nat) (uid : String) (snap live : AppState) : AppState :=
  if snap.isRunning then live
  else
    let live1 := { live with isRunning := true }
    match snap.currentSession with
    | some _ => live1
    | none => { live1 with currentSession := some (newWorkSession now uid) }

/-- `App.startBreak` (lines 351-367): call `stopTimer` (with the same
snapshot), then install a fresh break session, reset elapsed time, and
run. -/
def startBreakW (now : Nat) (uid : String) (snap live : AppState) : AppState :=
  let live1 := stopTimerW now snap live
  { live1 with
    currentSession := some (newBreakSession now uid)
    elapsedTime := 0
    isRunning := true }

/-- `App.resetTimer` (lines 345-349): stop running, zero the elapsed
time, drop the current session; the entry list is not touched. -/
def resetTimerW (live : AppState) : AppState :=
  { live with isRunning := false, elapsedTime := 0, currentSession := none }

/-- `App.addNoteToCurrentSession` (lines 377-384): overwrite the notes
of the snapshot's current session, if any. -/
def addNoteW (note : String) (snap live : AppState) : AppState :=
  match snap.currentSession with
  | none => live
  | some s => { live with currentSession := some { s with notes := note } }

/-- One tick of the interval (lines 291-305):
`setElapsedTime(prev => prev + 1)` fires only while running. -/
def tickW (live : AppState) : AppState :=
  if live.isRunning then { live with elapsedTime := live.elapsedTime + 1 }
  else live

/-- The completion effect of `Timer.tsx` (lines 45-86), run against
the committed state `σ` after each render: when a session is running
and its elapsed time has reached the target duration for its type,
fire the auto-transition.  All handler calls inside the effect share
the effect's snapshot `σ` (stale closures): `stopTimer(); startBreak()`
runs `startBreak` — whose body calls `stopTimer` again — with
`σ.currentSession` still set. -/
def completionEffect (settings : AppSettings) (now : Nat) (uid : String)
    (σ : AppState) : AppState :=
  match σ.currentSession with
  | none => σ
  | some s =>
      if !σ.isRunning then σ
      else
        let targetDuration :=
          if s.type == .work then settings.workDuration else settings.breakDuration
        if targetDuration ≤ σ.elapsedTime then
          if s.type == .work && settings.autoStartBreaks then
            startBreakW now uid σ (stopTimerW now σ σ)
          else if s.type == .brk && settings.autoStartWork then
            startTimerW now uid σ (stopTimerW now σ σ)
          else
            stopTimerW now σ σ
        else σ

/-- The UI-event operations of the state machine, plus the tick and
the completion effect.  Each event runs its handler with
snapshot = committed state. -/
inductive Op where
  | start (now : Nat) (uid : String)
  | pause
  | stop (now : Nat)
  | reset
  | takeBreak (now : Nat) (uid : String)
  | note (text : String)
  | tick
  | complete (settings : AppSettings) (now : Nat) (uid : String)

/-- One step of the machine. -/
def step (σ : AppState) : Op → AppState
  | .start now uid => startTimerW now uid σ σ
  | .pause => { σ with isRunning := false }
  | .stop now => stopTimerW now σ σ
  | .reset => resetTimerW σ
  | .takeBreak now uid => startBreakW now uid σ σ
  | .note text => addNoteW text σ σ
  | .tick => tickW σ
  | .complete settings now uid => completionEffect settings now uid σ

/-- Run a list of operations from a state. -/
def run (σ : AppState) (ops : List Op) : AppState :=
  ops.foldl step σ

/-! ## Persistence reads (`App.tsx` state initializers, lines 248-264)

`localStorage.getItem` returns the stored string or null;
`saved ? JSON.parse(saved) : dflt` falls back to the default when the
item is absent (or the empty string, which is falsy), and otherwise
calls `JSON.parse`, which either returns the decoded value or throws —
the initializer has no try/catch, so a parse failure propagates as an
exception.  `JSON.parse` is an external library function; the
embedding takes the decoder as a parameter `parse` whose `Except`
result models return-or-throw. -/

/-- The `timeEntries` initializer (lines 248-251):
`saved ? JSON.parse(saved) : []`. -/
def loadTimeEntries (parse : String → Except String (List TimeEntry))
    (saved : Option String) : Except String (List TimeEntry) :=
  match saved with
  | none => .ok []
  | some s => if s = "" then .ok [] else parse s

/-- The default settings object of the `settings` initializer (lines
255-263); `sysDark` is the host's `prefers-color-scheme: dark` media
query result. -/
def defaultSettings (sysDark : Bool) (uid : String) : AppSettings :=
  { workDuration := 25 * 60
    breakDuration := 5 * 60
    autoStartBreaks := false
    autoStartWork := false
    notifications := true
    darkMode := sysDark
    userId := uid }

/-- The `settings` initializer (lines 253-264):
`saved ? JSON.parse(saved) : defaults`. -/
def loadSettings (parse : String → Except String AppSettings)
    (sysDark : Bool) (uid : String) (saved : Option String) :
    Except String AppSettings :=
  match saved with
  | none => .ok (defaultSettings sysDark uid)
  | some s => if s = "" then .ok (defaultSettings sysDark uid) else parse s

/-! ## Theorems -/

/-- C7: for every state, `resetTimer` leaves the persisted entry list
unchanged, clears the current session and the elapsed time, and stops
running (returns to Idle). -/
theorem resetTimer_spec (σ : AppState) :
    (step σ .reset).timeEntries = σ.timeEntries ∧
    (step σ .reset).currentSession = none ∧
    (step σ .reset).elapsedTime = 0 ∧
    (step σ .reset).isRunning = false := by
  refine ⟨rfl, rfl, rfl, rfl⟩

/-- C8: the five aggregates (`totalWorkTime`, `totalBreakTime`,
`workSessions`, `shortBreaks`, `longBreaks`) are computed over the
time-range-filtered set and do not depend on the `showBreaks` flag;
the flag only selects the display list (the returned
`filteredEntries`): all of the range-filtered entries when set, only
the work entries otherwise. -/
theorem stats_aggregates_ignore_showBreaks (env : TimeEnv) (range : TimeRange)
    (entries : List TimeEntry) (b₁ b₂ : Bool) :
    (statsOf env range b₁ entries).totalWorkTime
      = (statsOf env range b₂ entries).totalWorkTime ∧
    (statsOf env range b₁ entries).totalBreakTime
      = (statsOf env range b₂ entries).totalBreakTime ∧
    (statsOf env range b₁ entries).workSessions
      = (statsOf env range b₂ entries).workSessions ∧
    (statsOf env range b₁ entries).shortBreaks
      = (statsOf env range b₂ entries).shortBreaks ∧
    (statsOf env range b₁ entries).longBreaks
      = (statsOf env range b₂ entries).longBreaks ∧
    (statsOf env range b₁ entries).totalWorkTime
      = ((filterByRange env range entries).filter (fun e => e.type == .work)).foldl
          (fun total e => total + e.duration) 0 ∧
    (statsOf env range b₁ entries).filteredEntries
      = (if b₁ then filterByRange env range entries
         else (filterByRange env range entries).filter (fun e => e.type == .work)) := by
  refine ⟨rfl, rfl, rfl, rfl, rfl, rfl, rfl⟩

/-- C5: `startBreak` always ends Running on a fresh break-type session
with elapsed time 0; if a session was active it is finalized (with
`endTime = now` and `duration` = the elapsed time) and appended to the
entry list, and if the machine was Idle the entry list is unchanged (no
spurious work entry). -/
theorem startBreak_spec (now : Nat) (uid : String) (σ : AppState) :
    (step σ (.takeBreak now uid)).isRunning = true ∧
    (step σ (.takeBreak now uid)).currentSession = some (newBreakSession now uid) ∧
    (step σ (.takeBreak now uid)).elapsedTime = 0 ∧
    (∀ s, σ.currentSession = some s →
      (step σ (.takeBreak now uid)).timeEntries
        = σ.timeEntries ++ [finalize now s σ.elapsedTime]) ∧
    (σ.currentSession = none →
      (step σ (.takeBreak now uid)).timeEntries = σ.timeEntries) := by
  cases h : σ.currentSession <;>
    simp [step, startBreakW, stopTimerW, h]

/-- Witness for C5 at a concrete Idle state and a concrete Running
state. -/
theorem startBreak_spec_witness :
    (step initState (Op.takeBreak 5 "u")).timeEntries = initState.timeEntries ∧
    (step initState (Op.takeBreak 5 "u")).currentSession
      = some (newBreakSession 5 "u") ∧
    (step initState (Op.takeBreak 5 "u")).isRunning = true :=
  ⟨(startBreak_spec 5 "u" initState).2.2.2.2 rfl,
   (startBreak_spec 5 "u" initState).2.1,
   (startBreak_spec 5 "u" initState).1⟩

/-- C2 (amended): loading returns the default when the stored item is
absent (or the empty string, which is falsy in the source's
`saved ? JSON.parse(saved) : dflt`), and otherwise returns exactly
what `JSON.parse` produces — the parsed value when parsing succeeds,
and the propagated exception (not the default) when parsing fails. -/
theorem load_defaults_spec
    (parseE : String → Except String (List TimeEntry))
    (parseS : String → Except String AppSettings)
    (sysDark : Bool) (uid : String) :
    loadTimeEntries parseE none = .ok [] ∧
    loadSettings parseS sysDark uid none = .ok (defaultSettings sysDark uid) ∧
    (∀ s, s ≠ "" → loadTimeEntries parseE (some s) = parseE s) ∧
    (∀ s, s ≠ "" → loadSettings parseS sysDark uid (some s) = parseS s) := by
  refine ⟨rfl, rfl, ?_, ?_⟩ <;> intro s hs <;>
    simp [loadTimeEntries, loadSettings, hs]

/-- Witness for C2 with a concrete failing decoder and a concrete
stored string. -/
theorem load_defaults_spec_witness :
    loadTimeEntries (fun _ => .error "SyntaxError") none = .ok [] ∧
    loadTimeEntries (fun _ => .error "SyntaxError") (some "x")
      = .error "SyntaxError" :=
  ⟨(load_defaults_spec (fun _ => .error "SyntaxError")
      (fun _ => .error "SyntaxError") false "u").1,
   (load_defaults_spec (fun _ => .error "SyntaxError")
      (fun _ => .error "SyntaxError") false "u").2.2.1 "x" (by decide)⟩

/-- C2 counterexample: `JSON.parse` throws on the stored string
"not json" (it is not valid JSON); the initializer has no try/catch,
so loading propagates the error instead of returning the default empty
list — a parse failure is NOT treated like absence. -/
theorem load_parse_failure_cex :
    loadTimeEntries (fun _ => Except.error "SyntaxError: Unexpected token")
        (some "not json")
      = Except.error "SyntaxError: Unexpected token" ∧
    (Except.error "SyntaxError: Unexpected token"
        : Except String (List TimeEntry)) ≠ Except.ok [] := by
  exact ⟨rfl, by simp⟩

/-- The settings of the C4 scenario: default durations,
`autoStartBreaks` enabled. -/
def c4Settings : AppSettings :=
  { workDuration := 1500, breakDuration := 300, autoStartBreaks := true,
    autoStartWork := false, notifications := true, darkMode := false,
    userId := "u" }

/-- The running work session of the C4 scenario. -/
def c4Work : TimeEntry :=
  { id := 7, startTime := 100, endTime := none, duration := 0,
    type := .work, notes := "", userId := "u" }

/-- The committed state of the C4 scenario: Running a work session
whose elapsed time has just reached `workDuration`. -/
def c4State : AppState :=
  { isRunning := true, currentSession := some c4Work,
    timeEntries := [], elapsedTime := 1500 }

/-- C4: evaluating the completion effect at the threshold crossing
(work session, elapsed = workDuration, autoStartBreaks on).  The
effect runs `stopTimer(); startBreak();` and `startBreak` calls
`stopTimer` again with the same stale snapshot (currentSession still
set), so the finalized work entry is appended TWICE — the code
violates the claim's "exactly one finalized work entry".  The break
session and Running state do match the claim, and a re-evaluation of
the effect on the resulting state does not fire again. -/
theorem completionEffect_double_append :
    (completionEffect c4Settings 1600100 "u" c4State).timeEntries
      = [finalize 1600100 c4Work 1500, finalize 1600100 c4Work 1500] ∧
    (completionEffect c4Settings 1600100 "u" c4State).currentSession
      = some (newBreakSession 1600100 "u") ∧
    (completionEffect c4Settings 1600100 "u" c4State).isRunning = true ∧
    (completionEffect c4Settings 1600100 "u" c4State).elapsedTime = 0 ∧
    completionEffect c4Settings 1600200 "u"
        (completionEffect c4Settings 1600100 "u" c4State)
      = completionEffect c4Settings 1600100 "u" c4State := by
  refine ⟨rfl, rfl, rfl, rfl, by decide⟩

/-- The current-session invariant: when there is no current session
the machine is not running (Idle), an active current session has no
`endTime` yet, and every persisted entry has been finalized (has an
`endTime`) — so the single current session lives outside the persisted
list. -/
def SessionInv (σ : AppState) : Prop :=
  (σ.currentSession = none → σ.isRunning = false) ∧
  (∀ s, σ.currentSession = some s → s.endTime = none) ∧
  (∀ e ∈ σ.timeEntries, e.endTime ≠ none)

lemma entries_stopTimerW (now : Nat) (snap live : AppState)
    (h : ∀ e ∈ live.timeEntries, e.endTime ≠ none) :
    ∀ e ∈ (stopTimerW now snap live).timeEntries, e.endTime ≠ none := by
  cases hcs : snap.currentSession with
  | none => simpa [stopTimerW, hcs] using h
  | some s =>
      intro e he
      simp only [stopTimerW, hcs] at he
      rcases List.mem_append.mp he with h1 | h2
      · exact h e h1
      · simp only [List.mem_singleton] at h2
        subst h2
        simp [finalize]

lemma inv_stopTimerW (now : Nat) (snap live : AppState)
    (hlive : SessionInv live) :
    SessionInv (stopTimerW now snap live) := by
  cases hcs : snap.currentSession with
  | none => simpa [stopTimerW, hcs] using hlive
  | some s =>
      refine ⟨fun _ => ?_, fun t ht => ?_, ?_⟩
      · simp [stopTimerW, hcs]
      · simp [stopTimerW, hcs] at ht
      · exact entries_stopTimerW now snap live hlive.2.2

lemma inv_startBreakW (now : Nat) (uid : String) (snap live : AppState)
    (hlive : SessionInv live) :
    SessionInv (startBreakW now uid snap live) := by
  refine ⟨fun hn => ?_, fun t ht => ?_, fun e he => ?_⟩
  · simp [startBreakW] at hn
  · simp only [startBreakW, Option.some.injEq] at ht
    subst ht
    rfl
  · simp only [startBreakW] at he
    exact entries_stopTimerW now snap live hlive.2.2 e he

lemma inv_startTimerW_self (now : Nat) (uid : String) (σ : AppState)
    (h : SessionInv σ) : SessionInv (startTimerW now uid σ σ) := by
  by_cases hr : σ.isRunning
  · have hstep : startTimerW now uid σ σ = σ := by simp [startTimerW, hr]
    rw [hstep]; exact h
  · cases hcs : σ.currentSession with
    | none =>
        have hstep : startTimerW now uid σ σ
            = { σ with isRunning := true,
                       currentSession := some (newWorkSession now uid) } := by
          simp [startTimerW, hr, hcs]
        rw [hstep]
        refine ⟨fun hn => ?_, fun t ht => ?_, h.2.2⟩
        · exact absurd hn (by simp)
        · have ht' : some (newWorkSession now uid) = some t := ht
          injection ht' with h'
          subst h'
          rfl
    | some s =>
        have hstep : startTimerW now uid σ σ = { σ with isRunning := true } := by
          simp [startTimerW, hr, hcs]
        rw [hstep]
        refine ⟨fun hn => ?_, h.2.1, h.2.2⟩
        have hn' : σ.currentSession = none := hn
        rw [hcs] at hn'
        exact Option.noConfusion hn'

/-- C9: every operation of the machine (start, pause, stop, reset,
startBreak, addNote, tick, and the completion effect) preserves the
current-session invariant: the single current session is either absent
(and then the machine is not running) or an entry with `endTime =
null`; and the current session is never an element of the persisted
entry list. -/
theorem sessionInv_preserved (σ : AppState) (op : Op) (h : SessionInv σ) :
    SessionInv (step σ op) ∧
    ∀ s, (step σ op).currentSession = some s →
      s ∉ (step σ op).timeEntries := by
  have key : SessionInv (step σ op) := by
    obtain ⟨h1, h2, h3⟩ := h
    cases op with
    | start now uid => exact inv_startTimerW_self now uid σ ⟨h1, h2, h3⟩
    | pause => exact ⟨fun _ => rfl, h2, h3⟩
    | stop now => exact inv_stopTimerW now σ σ ⟨h1, h2, h3⟩
    | reset =>
        refine ⟨fun _ => rfl, fun t ht => ?_, h3⟩
        simp [step, resetTimerW] at ht
    | takeBreak now uid => exact inv_startBreakW now uid σ σ ⟨h1, h2, h3⟩
    | note text =>
        cases hcs : σ.currentSession with
        | none =>
            have hstep : step σ (.note text) = σ := by
              simp [step, addNoteW, hcs]
            rw [hstep]; exact ⟨h1, h2, h3⟩
        | some s =>
            have hstep : step σ (.note text)
                = { σ with currentSession := some { s with notes := text } } := by
              simp [step, addNoteW, hcs]
            rw [hstep]
            refine ⟨fun hn => ?_, fun t ht => ?_, h3⟩
            · exact absurd hn (by simp)
            · have ht' : some ({ s with notes := text }) = some t := ht
              injection ht' with h'
              subst h'
              exact h2 s hcs
    | tick =>
        by_cases hr : σ.isRunning
        · have hstep : step σ .tick = { σ with elapsedTime := σ.elapsedTime + 1 } := by
            simp [step, tickW, hr]
          rw [hstep]
          refine ⟨fun hn => ?_, h2, h3⟩
          have hn' : σ.currentSession = none := hn
          exact absurd (h1 hn') (by simp [hr])
        · have hstep : step σ .tick = σ := by simp [step, tickW, hr]
          rw [hstep]; exact ⟨h1, h2, h3⟩
    | complete settings now uid =>
        cases hcs : σ.currentSession with
        | none =>
            have hstep : step σ (.complete settings now uid) = σ := by
              simp [step, completionEffect, hcs]
            rw [hstep]; exact ⟨h1, h2, h3⟩
        | some s =>
            by_cases hr : σ.isRunning
            case neg =>
              have hstep : step σ (.complete settings now uid) = σ := by
                simp [step, completionEffect, hcs, hr]
              rw [hstep]; exact ⟨h1, h2, h3⟩
            case pos => ?_
            by_cases hth : (if s.type = EntryType.work then settings.workDuration
                else settings.breakDuration) ≤ σ.elapsedTime
            case neg =>
              have hstep : step σ (.complete settings now uid) = σ := by
                simp [step, completionEffect, hcs, hr, hth]
              rw [hstep]; exact ⟨h1, h2, h3⟩
            case pos => ?_
            by_cases hb : s.type = EntryType.work ∧ settings.autoStartBreaks = true
            case pos =>
              have hb1 := hb.1
              have hth' : settings.workDuration ≤ σ.elapsedTime := by
                rw [hb1] at hth
                simpa using hth
              have hstep : step σ (.complete settings now uid)
                  = startBreakW now uid σ (stopTimerW now σ σ) := by
                simp [step, completionEffect, hcs, hr, hb, hb1, hth']
              rw [hstep]
              exact inv_startBreakW now uid σ _
                (inv_stopTimerW now σ σ ⟨h1, h2, h3⟩)
            case neg => ?_
            by_cases hw : s.type = EntryType.brk ∧ settings.autoStartWork = true
            case pos =>
              have hw1 := hw.1
              have hth' : settings.breakDuration ≤ σ.elapsedTime := by
                rw [hw1] at hth
                simpa using hth
              have hstep : step σ (.complete settings now uid)
                  = stopTimerW now σ σ := by
                simp [step, completionEffect, startTimerW, hcs, hr, hw, hw1, hth']
              rw [hstep]
              exact inv_stopTimerW now σ σ ⟨h1, h2, h3⟩
            case neg =>
              have hstep : step σ (.complete settings now uid)
                  = stopTimerW now σ σ := by
                simp [step, completionEffect, hcs, hr, hth, hb, hw]
              rw [hstep]
              exact inv_stopTimerW now σ σ ⟨h1, h2, h3⟩
  refine ⟨key, fun s hs hmem => ?_⟩
  exact key.2.2 s hmem (key.2.1 s hs)

/-- Witness for C9: the invariant holds of the initial state and is
preserved by a concrete start operation. -/
theorem sessionInv_preserved_witness :
    SessionInv (step initState (Op.start 3 "u")) := by
  have h0 : SessionInv initState := by
    refine ⟨fun _ => rfl, fun s hs => ?_, fun e he => ?_⟩
    · exact Option.noConfusion hs
    · exact absurd he (List.not_mem_nil e)
  exact (sessionInv_preserved initState (Op.start 3 "u") h0).1

/-- An entry the state machine can produce: its `type` tag is `work`
or `break` — `App.tsx` only ever constructs those two tags. -/
def producible (e : TimeEntry) : Prop := e.type = .work ∨ e.type = .brk

/-- All entries of a state (persisted and current) are
machine-producible. -/
def TypesOK (σ : AppState) : Prop :=
  (∀ e ∈ σ.timeEntries, producible e) ∧
  (∀ s, σ.currentSession = some s → producible s)

lemma producible_entries_stopTimerW (now : Nat) (snap live : AppState)
    (hl : ∀ e ∈ live.timeEntries, producible e)
    (hs : ∀ s, snap.currentSession = some s → producible s) :
    ∀ e ∈ (stopTimerW now snap live).timeEntries, producible e := by
  cases hcs : snap.currentSession with
  | none => simpa [stopTimerW, hcs] using hl
  | some s =>
      intro e he
      simp only [stopTimerW, hcs] at he
      rcases List.mem_append.mp he with h1 | h2
      · exact hl e h1
      · simp only [List.mem_singleton] at h2
        subst h2
        simpa [finalize, producible] using hs s hcs

lemma typesOK_step (σ : AppState) (op : Op) (h : TypesOK σ) :
    TypesOK (step σ op) := by
  obtain ⟨h1, h2⟩ := h
  cases op with
  | start now uid =>
      by_cases hr : σ.isRunning
      · have hstep : step σ (.start now uid) = σ := by simp [step, startTimerW, hr]
        rw [hstep]; exact ⟨h1, h2⟩
      · cases hcs : σ.currentSession with
        | none =>
            have hstep : step σ (.start now uid)
                = { σ with isRunning := true,
                           currentSession := some (newWorkSession now uid) } := by
              simp [step, startTimerW, hr, hcs]
            rw [hstep]
            refine ⟨h1, fun t ht => ?_⟩
            have ht' : some (newWorkSession now uid) = some t := ht
            injection ht' with h'
            subst h'
            exact Or.inl rfl
        | some s =>
            have hstep : step σ (.start now uid) = { σ with isRunning := true } := by
              simp [step, startTimerW, hr, hcs]
            rw [hstep]
            exact ⟨h1, h2⟩
  | pause => exact ⟨h1, h2⟩
  | stop now =>
      cases hcs : σ.currentSession with
      | none =>
          have hstep : step σ (.stop now) = σ := by simp [step, stopTimerW, hcs]
          rw [hstep]; exact ⟨h1, h2⟩
      | some s =>
          refine ⟨producible_entries_stopTimerW now σ σ h1 h2, fun t ht => ?_⟩
          simp [step, stopTimerW, hcs] at ht
  | reset =>
      refine ⟨h1, fun t ht => ?_⟩
      simp [step, resetTimerW] at ht
  | takeBreak now uid =>
      refine ⟨?_, fun t ht => ?_⟩
      · exact producible_entries_stopTimerW now σ _
          (by simpa [step, startBreakW] using h1) h2
      · have ht' : some (newBreakSession now uid) = some t := ht
        injection ht' with h'
        subst h'
        exact Or.inr rfl
  | note text =>
      cases hcs : σ.currentSession with
      | none =>
          have hstep : step σ (.note text) = σ := by simp [step, addNoteW, hcs]
          rw [hstep]; exact ⟨h1, h2⟩
      | some s =>
          have hstep : step σ (.note text)
              = { σ with currentSession := some { s with notes := text } } := by
            simp [step, addNoteW, hcs]
          rw [hstep]
          refine ⟨h1, fun t ht => ?_⟩
          have ht' : some ({ s with notes := text }) = some t := ht
          injection ht' with h'
          subst h'
          simpa [producible] using h2 s hcs
  | tick =>
      by_cases hr : σ.isRunning
      · have hstep : step σ .tick = { σ with elapsedTime := σ.elapsedTime + 1 } := by
          simp [step, tickW, hr]
        rw [hstep]; exact ⟨h1, h2⟩
      · have hstep : step σ .tick = σ := by simp [step, tickW, hr]
        rw [hstep]; exact ⟨h1, h2⟩
  | complete settings now uid =>
      cases hcs : σ.currentSession with
      | none =>
          have hstep : step σ (.complete settings now uid) = σ := by
            simp [step, completionEffect, hcs]
          rw [hstep]; exact ⟨h1, h2⟩
      | some s =>
          by_cases hr : σ.isRunning
          case neg =>
            have hstep : step σ (.complete settings now uid) = σ := by
              simp [step, completionEffect, hcs, hr]
            rw [hstep]; exact ⟨h1, h2⟩
          case pos => ?_
          by_cases hth : (if s.type = EntryType.work then settings.workDuration
              else settings.breakDuration) ≤ σ.elapsedTime
          case neg =>
            have hstep : step σ (.complete settings now uid) = σ := by
              simp [step, completionEffect, hcs, hr, hth]
            rw [hstep]; exact ⟨h1, h2⟩
          case pos => ?_
          have hstop : TypesOK (stopTimerW now σ σ) := by
            refine ⟨producible_entries_stopTimerW now σ σ h1 h2, fun t ht => ?_⟩
            simp [stopTimerW, hcs] at ht
          by_cases hb : s.type = EntryType.work ∧ settings.autoStartBreaks = true
          case pos =>
            have hb1 := hb.1
            have hth' : settings.workDuration ≤ σ.elapsedTime := by
              rw [hb1] at hth
              simpa using hth
            have hstep : step σ (.complete settings now uid)
                = startBreakW now uid σ (stopTimerW now σ σ) := by
              simp [step, completionEffect, hcs, hr, hb, hb1, hth']
            rw [hstep]
            refine ⟨?_, fun t ht => ?_⟩
            · exact producible_entries_stopTimerW now σ _
                (by simpa [startBreakW] using hstop.1) h2
            · have ht' : some (newBreakSession now uid) = some t := ht
              injection ht' with h'
              subst h'
              exact Or.inr rfl
          case neg => ?_
          by_cases hw : s.type = EntryType.brk ∧ settings.autoStartWork = true
          case pos =>
            have hw1 := hw.1
            have hth' : settings.breakDuration ≤ σ.elapsedTime := by
              rw [hw1] at hth
              simpa using hth
            have hstep : step σ (.complete settings now uid)
                = stopTimerW now σ σ := by
              simp [step, completionEffect, startTimerW, hcs, hr, hw, hw1, hth']
            rw [hstep]
            exact hstop
          case neg =>
            have hstep : step σ (.complete settings now uid)
                = stopTimerW now σ σ := by
              simp [step, completionEffect, hcs, hr, hth, hb, hw]
            rw [hstep]
            exact hstop

lemma typesOK_run (ops : List Op) (σ : AppState) (h : TypesOK σ) :
    TypesOK (run σ ops) := by
  induction ops generalizing σ with
  | nil => exact h
  | cons op ops ih => exact ih (step σ op) (typesOK_step σ op h)

lemma mem_filterByRange (env : TimeEnv) (range : TimeRange)
    (l : List TimeEntry) (e : TimeEntry)
    (he : e ∈ filterByRange env range l) : e ∈ l := by
  cases range <;>
    simp only [filterByRange, rangeCutoff] at he <;>
    first
      | exact he
      | exact (List.mem_filter.mp he).1

lemma no_break_filter (l : List TimeEntry) (h : ∀ e ∈ l, producible e) :
    l.filter (fun e => e.type == EntryType.shortBreak
        || e.type == EntryType.longBreak) = [] ∧
    l.filter (fun e => e.type == EntryType.shortBreak) = [] ∧
    l.filter (fun e => e.type == EntryType.longBreak) = [] := by
  refine ⟨?_, ?_, ?_⟩ <;>
  · rw [List.filter_eq_nil_iff]
    intro e he
    rcases h e he with h1 | h1 <;> simp [h1]

/-- C10: every entry produced by the state machine from the initial
state carries the tag `work` or `break` — never `shortBreak` or
`longBreak` — while the statistics engine recognizes break time and
break counts only for the tags `shortBreak`/`longBreak`; hence over
any machine-produced entry list, for every time range and
break-visibility flag, `totalBreakTime`, `shortBreaks` and
`longBreaks` are all zero. -/
theorem machine_no_short_long_breaks (ops : List Op) (env : TimeEnv)
    (range : TimeRange) (showBreaks : Bool) :
    (∀ e ∈ (run initState ops).timeEntries,
      e.type = EntryType.work ∨ e.type = EntryType.brk) ∧
    (statsOf env range showBreaks (run initState ops).timeEntries).totalBreakTime = 0 ∧
    (statsOf env range showBreaks (run initState ops).timeEntries).shortBreaks = 0 ∧
    (statsOf env range showBreaks (run initState ops).timeEntries).longBreaks = 0 := by
  have h0 : TypesOK initState := by
    refine ⟨fun e he => ?_, fun s hs => ?_⟩
    · exact absurd he (List.not_mem_nil e)
    · exact Option.noConfusion hs
  have hall := (typesOK_run ops initState h0).1
  have hfil : ∀ e ∈ filterByRange env range (run initState ops).timeEntries,
      producible e :=
    fun e he => hall e (mem_filterByRange env range _ e he)
  obtain ⟨hb, hsB, hlB⟩ := no_break_filter _ hfil
  refine ⟨hall, ?_, ?_, ?_⟩ <;>
    simp [statsOf, hb, hsB, hlB]

/-- Witness for C10: a concrete session run (start, two ticks, stop,
a break taken and stopped) yields zero break totals and counts. -/
theorem machine_no_short_long_breaks_witness :
    (statsOf ⟨0, 0, 0⟩ TimeRange.all true
      (run initState [Op.start 1 "u", Op.tick, Op.tick, Op.stop 2500,
        Op.takeBreak 3000 "u", Op.tick, Op.stop 4200]).timeEntries).totalBreakTime = 0 ∧
    (statsOf ⟨0, 0, 0⟩ TimeRange.all true
      (run initState [Op.start 1 "u", Op.tick, Op.tick, Op.stop 2500,
        Op.takeBreak 3000 "u", Op.tick, Op.stop 4200]).timeEntries).shortBreaks = 0 ∧
    (statsOf ⟨0, 0, 0⟩ TimeRange.all true
      (run initState [Op.start 1 "u", Op.tick, Op.tick, Op.stop 2500,
        Op.takeBreak 3000 "u", Op.tick, Op.stop 4200]).timeEntries).longBreaks = 0 :=
  ⟨(machine_no_short_long_breaks [Op.start 1 "u", Op.tick, Op.tick, Op.stop 2500,
      Op.takeBreak 3000 "u", Op.tick, Op.stop 4200] ⟨0, 0, 0⟩ TimeRange.all true).2.1,
   (machine_no_short_long_breaks [Op.start 1 "u", Op.tick, Op.tick, Op.stop 2500,
      Op.takeBreak 3000 "u", Op.tick, Op.stop 4200] ⟨0, 0, 0⟩ TimeRange.all true).2.2.1,
   (machine_no_short_long_breaks [Op.start 1 "u", Op.tick, Op.tick, Op.stop 2500,
      Op.takeBreak 3000 "u", Op.tick, Op.stop 4200] ⟨0, 0, 0⟩ TimeRange.all true).2.2.2⟩

lemma mpd_foldl_spec (ds : List DailyStats) : ∀ d : DailyStats,
    d.totalWorkTime ≤ (ds.foldl mpdStep d).totalWorkTime ∧
    (∀ x ∈ ds, x.totalWorkTime ≤ (ds.foldl mpdStep d).totalWorkTime) ∧
    (((ds.foldl mpdStep d) = d ∧
        ∀ x ∈ ds, x.totalWorkTime < d.totalWorkTime) ∨
      ∃ pre suf, ds = pre ++ (ds.foldl mpdStep d) :: suf ∧
        ∀ x ∈ suf, x.totalWorkTime < (ds.foldl mpdStep d).totalWorkTime) := by
  induction ds with
  | nil =>
      intro d
      exact ⟨le_refl _, fun x hx => absurd hx (List.not_mem_nil x),
        Or.inl ⟨rfl, fun x hx => absurd hx (List.not_mem_nil x)⟩⟩
  | cons c cs ih =>
      intro d
      by_cases hc : c.totalWorkTime < d.totalWorkTime
      · have hstep : mpdStep d c = d := if_pos hc
        simp only [List.foldl_cons, hstep]
        obtain ⟨ih1, ih2, ih3⟩ := ih d
        refine ⟨ih1, ?_, ?_⟩
        · intro x hx
          rcases List.mem_cons.mp hx with rfl | hx2
          · exact le_trans (le_of_lt hc) ih1
          · exact ih2 x hx2
        · rcases ih3 with ⟨hr, hall⟩ | ⟨pre, suf, heq, hsuf⟩
          · refine Or.inl ⟨hr, fun x hx => ?_⟩
            rcases List.mem_cons.mp hx with rfl | hx2
            · exact hc
            · exact hall x hx2
          · exact Or.inr ⟨c :: pre, suf, by rw [List.cons_append, ← heq], hsuf⟩
      · have hstep : mpdStep d c = c := if_neg hc
        simp only [List.foldl_cons, hstep]
        obtain ⟨ih1, ih2, ih3⟩ := ih c
        refine ⟨le_trans (le_of_not_lt hc) ih1, ?_, ?_⟩
        · intro x hx
          rcases List.mem_cons.mp hx with rfl | hx2
          · exact ih1
          · exact ih2 x hx2
        · rcases ih3 with ⟨hr, hall⟩ | ⟨pre, suf, heq, hsuf⟩
          · refine Or.inr ⟨[], cs, ?_, ?_⟩
            · rw [hr, List.nil_append]
            · intro x hx
              rw [hr]
              exact hall x hx
          · exact Or.inr ⟨c :: pre, suf, by rw [List.cons_append, ← heq], hsuf⟩

/-- C1 (amended): `mostProductiveDay` of a non-empty daily-stats list
is a day of maximal `totalWorkTime`, and among the days attaining the
maximum it is the day encountered LAST in the (already-sorted,
newest-first) iteration order — every later element is strictly
smaller; of an empty list it is `null`. -/
theorem mostProductiveDay_spec :
    mostProductiveDay [] = none ∧
    ∀ d ds, ∃ m pre suf,
      mostProductiveDay (d :: ds) = some m ∧
      d :: ds = pre ++ m :: suf ∧
      (∀ x ∈ d :: ds, x.totalWorkTime ≤ m.totalWorkTime) ∧
      (∀ x ∈ suf, x.totalWorkTime < m.totalWorkTime) := by
  refine ⟨rfl, fun d ds => ?_⟩
  obtain ⟨h1, h2, h3⟩ := mpd_foldl_spec ds d
  refine ⟨ds.foldl mpdStep d, ?_⟩
  have hbound : ∀ x ∈ d :: ds, x.totalWorkTime ≤ (ds.foldl mpdStep d).totalWorkTime := by
    intro x hx
    rcases List.mem_cons.mp hx with rfl | hx2
    · exact h1
    · exact h2 x hx2
  rcases h3 with ⟨hr, hall⟩ | ⟨pre, suf, heq, hsuf⟩
  · refine ⟨[], ds, rfl, ?_, hbound, ?_⟩
    · rw [hr, List.nil_append]
    · intro x hx
      rw [hr]
      exact hall x hx
  · exact ⟨d :: pre, suf, rfl, by rw [List.cons_append, ← heq], hbound, hsuf⟩

/-- Witness for C1 (amended) at a concrete one-day list. -/
theorem mostProductiveDay_spec_witness :
    ∃ m pre suf,
      mostProductiveDay [(⟨3, 7, 0, 1⟩ : DailyStats)] = some m ∧
      [(⟨3, 7, 0, 1⟩ : DailyStats)] = pre ++ m :: suf ∧
      (∀ x ∈ [(⟨3, 7, 0, 1⟩ : DailyStats)], x.totalWorkTime ≤ m.totalWorkTime) ∧
      (∀ x ∈ suf, x.totalWorkTime < m.totalWorkTime) :=
  mostProductiveDay_spec.2 ⟨3, 7, 0, 1⟩ []

/-- C1 counterexample: two days with equal maximal `totalWorkTime`, in
newest-first order (date 2 before date 1).  The reduce keeps `current`
on ties (`prev > current` is false), so the LAST-encountered day
(date 1) is returned — not the first-encountered one (date 2) as the
claim states. -/
theorem mostProductiveDay_tie_cex :
    mostProductiveDay
        [(⟨2, 5, 0, 1⟩ : DailyStats), (⟨1, 5, 0, 1⟩ : DailyStats)]
      = some (⟨1, 5, 0, 1⟩ : DailyStats) ∧
    (⟨2, 5, 0, 1⟩ : DailyStats).totalWorkTime
      = (⟨1, 5, 0, 1⟩ : DailyStats).totalWorkTime ∧
    some (⟨1, 5, 0, 1⟩ : DailyStats) ≠ some (⟨2, 5, 0, 1⟩ : DailyStats) := by
  refine ⟨rfl, rfl, by decide⟩

/-- C6: the productivity score is the rounded value of the exact
piecewise formula of the spec: 0 when both totals are zero; with
ratio = W/B when B is positive, else 100 when W is positive, else 0:
100 in the ideal band 4 ≤ ratio ≤ 6, the overwork penalty
100 − min(((ratio−6)/4)·100, 50) when ratio > 6, and the break penalty
max((ratio/4)·100, 50) when 0 < ratio < 4; in particular
W=1000,B=200 scores 100, W=1000,B=0 scores 50, and W=0,B=0 scores
0. -/
theorem productivityScore_spec (w b : Nat) :
    (w = 0 ∧ b = 0 → productivityScore w b = 0) ∧
    (∀ ratio : ℚ,
      ratio = (if (0 : ℚ) < (b : ℚ) then (w : ℚ) / (b : ℚ)
               else if (0 : ℚ) < (w : ℚ) then 100 else 0) →
      (4 ≤ ratio ∧ ratio ≤ 6 → productivityScore w b = 100) ∧
      (6 < ratio →
        productivityScore w b
          = round ((100 : ℚ) - min (((ratio - 6) / 4) * 100) 50)) ∧
      (0 < ratio ∧ ratio < 4 →
        productivityScore w b = round (max ((ratio / 4) * 100) 50))) ∧
    productivityScore 1000 200 = 100 ∧
    productivityScore 1000 0 = 50 ∧
    productivityScore 0 0 = 0 := by
  refine ⟨?_, ?_, by norm_num [productivityScore, round_eq],
    by norm_num [productivityScore, round_eq], by norm_num [productivityScore]⟩
  · rintro ⟨hw, hb⟩
    subst hw hb
    simp [productivityScore]
  · intro ratio hr
    have hw0 : 0 < ratio → ¬(w = 0 ∧ b = 0) := by
      rintro hpos ⟨hw, hb⟩
      subst hw hb
      norm_num at hr
      rw [hr] at hpos
      exact lt_irrefl 0 hpos
    refine ⟨?_, ?_, ?_⟩
    · rintro ⟨h4, h6⟩
      have hne := hw0 (lt_of_lt_of_le (by norm_num) h4)
      simp only [productivityScore, hne, if_false]
      rw [← hr, if_pos ⟨h4, h6⟩]
      norm_num
    · intro h6
      have hne := hw0 (lt_trans (by norm_num) h6)
      simp only [productivityScore, hne, if_false]
      rw [← hr, if_neg (by rintro ⟨_, h⟩; exact absurd h6 (not_lt.mpr h)),
        if_pos h6]
    · rintro ⟨hpos, h4⟩
      have hne := hw0 hpos
      simp only [productivityScore, hne, if_false]
      rw [← hr, if_neg (by rintro ⟨h, _⟩; exact absurd h4 (not_lt.mpr h)),
        if_neg (by intro h; exact absurd (lt_trans h4 (by norm_num)) (not_lt.mpr (le_of_lt h))),
        if_pos ⟨h4, hpos⟩]

/-- Witness for C6: the ideal-band branch at W=1000, B=200
(ratio 5). -/
theorem productivityScore_spec_witness :
    productivityScore 1000 200 = 100 :=
  ((productivityScore_spec 1000 200).2.1 5 (by norm_num)).1 (by norm_num)

/-- C3 (amended): the CSV export consists of the exact header row
`Date, Start Time, End Time, Duration (minutes), Type, Notes` followed
by exactly one row per entry of the FULL entry list handed to the
component (the current user's complete list, regardless of the
selected time range or break-visibility flag); each row's duration
cell is the entry's duration in seconds rounded to the nearest minute
(within 30 seconds of the exact value) and the notes cell contains no
comma — every comma is replaced by a semicolon, all other characters
kept. -/
theorem exportToCSV_spec (entries : List TimeEntry) :
    String.intercalate "," csvHeaders
      = "Date,Start Time,End Time,Duration (minutes),Type,Notes" ∧
    (csvData entries).length = entries.length ∧
    (∀ e ∈ entries, csvRow e ∈ csvData entries) ∧
    (∀ e : TimeEntry, (csvRow e).length = csvHeaders.length ∧
      (csvRow e).getD 3 "" = toString (csvDuration e.duration) ∧
      (csvRow e).getD 5 "" = replaceCommas e.notes) ∧
    (∀ d : Nat, |(csvDuration d : ℚ) * 60 - (d : ℚ)| ≤ 30) ∧
    (∀ s : String,
      (replaceCommas s).data
        = s.data.map (fun c => if c = ',' then ';' else c) ∧
      ',' ∉ (replaceCommas s).data) := by
  refine ⟨rfl, List.length_map _ _, fun e he => List.mem_map_of_mem csvRow he,
    fun e => ⟨rfl, rfl, rfl⟩, ?_, ?_⟩
  · intro d
    have h := abs_sub_round ((d : ℚ) / 60)
    have h60 : (csvDuration d : ℚ) * 60 - (d : ℚ)
        = ((round ((d : ℚ) / 60) : ℚ) - (d : ℚ) / 60) * 60 := by
      rw [csvDuration]
      field_simp
    rw [h60, abs_mul]
    have h2 : |(60 : ℚ)| = 60 := by norm_num
    rw [h2]
    rw [abs_sub_comm] at h
    linarith [h]
  · intro s
    refine ⟨rfl, fun hmem => ?_⟩
    obtain ⟨c, _, hcf⟩ := List.mem_map.mp hmem
    by_cases hc : c = ','
    · rw [if_pos hc] at hcf
      exact absurd hcf (by decide)
    · rw [if_neg hc] at hcf
      exact hc hcf

/-- Witness for C3 (amended) at a concrete two-entry list. -/
theorem exportToCSV_spec_witness :
    (csvData [(⟨1, 5, some 7, 60, EntryType.work, "a,b", "u"⟩ : TimeEntry),
        (⟨2, 9, none, 90, EntryType.brk, "", "u"⟩ : TimeEntry)]).length = 2 ∧
    String.intercalate "," csvHeaders
      = "Date,Start Time,End Time,Duration (minutes),Type,Notes" :=
  ⟨(exportToCSV_spec [(⟨1, 5, some 7, 60, EntryType.work, "a,b", "u"⟩ : TimeEntry),
      (⟨2, 9, none, 90, EntryType.brk, "", "u"⟩ : TimeEntry)]).2.1,
   (exportToCSV_spec []).1⟩

/-- An entry that starts after the `today` threshold of `cexEnv`. -/
def cexEntryToday : TimeEntry :=
  { id := 1, startTime := msPerDay + 5, endTime := some (msPerDay + 900000),
    duration := 90, type := .work, notes := "", userId := "u" }

/-- An entry from the previous day (before the `today` threshold). -/
def cexEntryOld : TimeEntry :=
  { id := 2, startTime := 5, endTime := some 7, duration := 60,
    type := .work, notes := "", userId := "u" }

/-- A time environment whose local midnight is at one day past the
epoch. -/
def cexEnv : TimeEnv :=
  { startOfToday := msPerDay, startOfWeek := 0, startOfMonth := 0 }

/-- C3 counterexample: with the `today` range selected, the
filtered/displayed entry set contains one entry, but the CSV export
emits two data rows — `exportToCSV` iterates the full `timeEntries`
prop, not the filtered set. -/
theorem exportToCSV_full_list_cex :
    ((statsOf cexEnv TimeRange.today true
        [cexEntryToday, cexEntryOld]).filteredEntries).length = 1 ∧
    (csvData [cexEntryToday, cexEntryOld]).length = 2 ∧ (1 : Nat) ≠ 2 := by
  refine ⟨by decide, rfl, by decide⟩

end TimeTracker
